import Mathlib

/-!
Verification of the network-adjustment engine of `gsadjust/data/adjustment.py`:
the least-squares inversion (`python_lsq_inversion`), the chi-square statistics
(`lsq_statistics`) and the textual reporting (`get_report`, `results_string`).

Numbers are modelled by real numbers.  numpy 2-D arrays become Mathlib
matrices over `ℝ`; the observation vector `Obs` is a column matrix (the code
indexes `VtPV[0][0]`, so the vectors are `(k, 1)` arrays).  Exceptions raised
by Python / numpy become the `Except PyExc` monad:

* `np.linalg.inv` raises `LinAlgError("Singular matrix")` on a singular
  argument — modelled by `npLinalgInv` returning `.error .linAlgSingular`;
* pure-Python float division by zero raises `ZeroDivisionError` — in
  `lsq_statistics` the expressions `1 / alpha` (line 240) and `2 / (9 * dof)`
  (lines 245-247, with `dof = float(self.dof)`) raise when `alpha = 0`
  resp. `dof = 0`, and in `get_report` the line `self.chi2 / self.dof`
  (line 53) raises when the stored `dof` is `0`;
* reading an attribute that was never assigned raises `AttributeError` —
  `AdjustmentResults.__init__` never creates `meter_cal_dict` (and nothing in
  the program ever assigns it), so the field is modelled as an `Option` that
  the constructor leaves at `none`; `results_string` catches `AttributeError`
  and `TypeError` and returns the empty string;
* out-of-range indexing of `self.X` in the drift block raises `IndexError`,
  which `results_string` does not catch.

Python dicts iterated with `.items()` become association lists (iteration
order is insertion order).  The report lines are f-strings; each one is
modelled as a `ReportLine` constructor carrying the dynamic values embedded in
the corresponding format string, so the numeric content of every line is kept
while the fixed label text is represented by the constructor itself.
-/

namespace GSadjust

noncomputable section

open scoped Matrix

/-- Exceptions that the modelled code can raise. -/
inductive PyExc where
  /-- `numpy.linalg.LinAlgError("Singular matrix")` from `np.linalg.inv`. -/
  | linAlgSingular
  /-- Python `ZeroDivisionError` (float division by zero). -/
  | zeroDivisionError
  /-- Python `AttributeError` (attribute never assigned). -/
  | attributeError
  /-- Python `IndexError` (sequence index out of range). -/
  | indexError
  deriving DecidableEq

/-- `AdjustmentOptions.__init__` (adjustment.py lines 87-102).  The per-meter
dict defaults to `None`, modelled as `Option` of an association list. -/
structure AdjustmentOptions where
  use_sigma_prefactor : Bool
  sigma_prefactor : ℝ
  use_sigma_postfactor : Bool
  sigma_postfactor : ℝ
  use_sigma_add : Bool
  sigma_add : ℝ
  use_sigma_min : Bool
  sigma_min : ℝ
  alpha : ℝ
  cal_coeff : Bool
  adj_type : String
  specify_cal_coeff : Bool
  meter_cal_dict : Option (List (String × ℝ))

/-- The defaults assigned by `AdjustmentOptions.__init__`. -/
def AdjustmentOptions.init : AdjustmentOptions where
  use_sigma_prefactor := false
  sigma_prefactor := 1.0
  use_sigma_postfactor := false
  sigma_postfactor := 1.0
  use_sigma_add := false
  sigma_add := 0.0
  use_sigma_min := false
  sigma_min := 3.0
  alpha := 0.05
  cal_coeff := false
  adj_type := "gravnet"
  specify_cal_coeff := false
  meter_cal_dict := none

/-- `AdjustmentResults` (adjustment.py lines 21-35) plus the two attributes
other methods attach dynamically:

* `dof` is assigned by `Adjustment.lsq_statistics` (line 239) and read by
  `get_report` (lines 52-53); `__init__` leaves it unset, modelled as an
  `Option` that starts at `none` (reading `none` is an `AttributeError`);
* `meter_cal_dict` is probed by `Adjustment.results_string` (line 175) but no
  statement of the program ever assigns it, so it is an `Option` that
  `__init__` leaves at `none` (reading `none` is an `AttributeError`). -/
structure AdjustmentResults where
  n_deltas : ℕ
  n_deltas_notused : ℕ
  n_datums : ℕ
  n_datums_notused : ℕ
  n_unknowns : ℕ
  max_dg_residual : ℝ
  min_dg_residual : ℝ
  max_datum_residual : ℝ
  min_datum_residual : ℝ
  avg_stdev : ℝ
  chi2 : ℝ
  chi2c : ℝ
  cal_dic : List (String × ℝ × ℝ)
  netadj_drift_dic : List (String × ℝ)
  text : List String
  dof : Option ℤ
  meter_cal_dict : Option (List (String × ℝ))

/-- The state `AdjustmentResults.__init__` creates. -/
def AdjustmentResults.init : AdjustmentResults where
  n_deltas := 0
  n_deltas_notused := 0
  n_datums := 0
  n_datums_notused := 0
  n_unknowns := 0
  max_dg_residual := 0
  min_dg_residual := 0
  max_datum_residual := 0
  min_datum_residual := 0
  avg_stdev := 0
  chi2 := 0
  chi2c := 0
  cal_dic := []
  netadj_drift_dic := []
  text := []
  dof := none
  meter_cal_dict := none

/-- One line of the textual report.  Each constructor stands for one format
string of `get_report` / `results_string` and carries the dynamic values that
the f-string interpolates. -/
inductive ReportLine where
  | nUnknowns (n : ℕ)
  | nDeltas (n : ℕ)
  | nDatums (n : ℕ)
  | dofLine (d : ℤ)
  /-- `"SD a posteriori: {self.chi2 / self.dof:4f}"` (line 53). -/
  | sdAposteriori (v : ℝ)
  | chi2Line (v : ℝ)
  | chi2cLine (v : ℝ)
  /-- `"Chi-test {chi_result}"` (line 56). -/
  | chiTest (result : String)
  | avgStdev (v : ℝ)
  | maxDgResidual (v : ℝ)
  | maxDatumResidual (v : ℝ)
  | minDatumResidual (v : ℝ)
  /-- `"Calibration coefficient for meter ..."` with value and plus-minus
  uncertainty (line 170). -/
  | calCoeffLine (meter : String) (value uncert : ℝ)
  /-- `"Specified calibration coefficient for meter {} : {:.6f}"` (177). -/
  | specifiedCalCoeffLine (meter : String) (value : ℝ)
  | driftHeader
  | loopHeader (name : String)
  /-- Drift line for polynomial term `i + 1`; `annotated` records whether the
  `(µGal/day)` suffix variant (line 198) was chosen. -/
  | driftCoeffLine (degree : ℕ) (value : ℝ) (annotated : Bool)

open Classical in
/-- `AdjustmentResults.get_report` (adjustment.py lines 46-63).  The f-string
list evaluates `{self.dof:d}` (line 52) and `self.chi2 / self.dof` (line 53):
when the `dof` attribute was never assigned, line 52 raises `AttributeError`;
when it holds `0`, line 53 raises `ZeroDivisionError`.  In either case no
report is produced. -/
def get_report (ar : AdjustmentResults) : Except PyExc (List ReportLine) :=
  match ar.dof with
  | none => .error .attributeError
  | some d =>
    if d = 0 then .error .zeroDivisionError
    else
      let chi_result : String :=
        if ar.chi2 < ar.chi2c then "accepted" else "rejected"
      .ok [ .nUnknowns ar.n_unknowns,
        .nDeltas ar.n_deltas,
        .nDatums ar.n_datums,
        .dofLine d,
        .sdAposteriori (ar.chi2 / (d : ℝ)),
        .chi2Line ar.chi2,
        .chi2cLine ar.chi2c,
        .chiTest chi_result,
        .avgStdev ar.avg_stdev,
        .maxDgResidual ar.max_dg_residual,
        .maxDatumResidual ar.max_datum_residual,
        .minDatumResidual ar.min_datum_residual ]

/-- `Adjustment` (adjustment.py lines 111-156): the least-squares input
matrices and results.  `m` is the number of observations, `n` the number of
unknowns; `Δ` and `Κ` are the (externally defined) types of the delta and
datum objects held in the two input lists.  `Obs`, `X`, `r` are column
matrices, `VtPV` is the `1×1` product `rᵀ·P·r` (the code reads
`VtPV[0][0]`). -/
structure Adjustment (m n : ℕ) (Δ Κ : Type) where
  A : Matrix (Fin m) (Fin n) ℝ
  P : Matrix (Fin m) (Fin m) ℝ
  Obs : Matrix (Fin m) (Fin 1) ℝ
  S : Matrix (Fin m) (Fin n) ℝ
  X : Matrix (Fin n) (Fin 1) ℝ
  r : Matrix (Fin m) (Fin 1) ℝ
  var : Fin n → ℝ
  VtPV : Matrix (Fin 1) (Fin 1) ℝ
  SDaposteriori : ℝ
  dof : ℤ
  n_meters : ℕ
  deltas : List Δ
  datums : List Κ
  g_dic : List (String × ℝ)
  sd_dic : List (String × ℝ)
  netadj_loop_keys : List (String × ℕ × ℕ)
  sta_dic_ls : List (String × ℕ)
  adjustmentoptions : AdjustmentOptions
  adjustmentresults : AdjustmentResults

variable {m n : ℕ} {Δ Κ : Type}

open Classical in
/-- `np.linalg.inv`: the inverse of a square matrix, raising
`LinAlgError("Singular matrix")` when the matrix is not invertible. -/
def npLinalgInv {k : ℕ} (M : Matrix (Fin k) (Fin k) ℝ) :
    Except PyExc (Matrix (Fin k) (Fin k) ℝ) :=
  if IsUnit M.det then .ok M⁻¹ else .error .linAlgSingular

/-- The normal-equations matrix `N = Aᵗ·P·A` formed at line 221. -/
def normalMatrix (adj : Adjustment m n Δ Κ) : Matrix (Fin n) (Fin n) ℝ :=
  adj.Aᵀ * adj.P * adj.A

/-- `Adjustment.python_lsq_inversion` (adjustment.py lines 214-231).

The method mutates `X`, `r`, `VtPV`, `SDaposteriori` and `var` in place; the
model returns the whole mutated object.  Notes kept from the source: line 230
calls `np.linalg.inv(N)` a second time with the same `N` (same value, reused
here); `var_post_norm = self.VtPV / self.dof` divides the `1×1` array by the
integer `dof` (numpy array division by zero warns instead of raising, so no
guard exists here); `cov_post = np.linalg.inv(N) * var_post_norm` is the
elementwise (broadcast) product, i.e. the scalar multiple; `np.diagonal`
extracts the diagonal. -/
def python_lsq_inversion (adj : Adjustment m n Δ Κ) :
    Except PyExc (Adjustment m n Δ Κ) :=
  let At := adj.Aᵀ
  let N := At * adj.P * adj.A
  (npLinalgInv N).map fun Ninv =>
    let X := Ninv * At * adj.P * adj.Obs
    let r := adj.A * X - adj.Obs
    let rt := rᵀ
    let VtPV := rt * adj.P * r
    let var_post_norm := VtPV 0 0 / (adj.dof : ℝ)
    let SDaposteriori := Real.sqrt var_post_norm
    let cov_post := var_post_norm • Ninv
    { adj with X := X, r := r, VtPV := VtPV, SDaposteriori := SDaposteriori,
               var := fun i => cov_post i i }

/-! ### The chi-square statistics (`Adjustment.lsq_statistics`, lines 233-247) -/

/-- Line 240: `t = np.sqrt(2 * np.log(1 / alpha))`. -/
def tval (alpha : ℝ) : ℝ := Real.sqrt (2 * Real.log (1 / alpha))

/-- The numerator polynomial of the rational term of `chi_1_alpha`
(line 241). -/
def numerPoly (t : ℝ) : ℝ := 2.515517 + 0.802853 * t + 0.010328 * t ^ 2

/-- The denominator polynomial of the rational term of `chi_1_alpha`
(line 242). -/
def denomPoly (t : ℝ) : ℝ := 1 + 1.432788 * t + 0.189269 * t ^ 2 + 0.001308 * t ^ 3

/-- Lines 240-243: the approximate standard-normal deviate `chi_1_alpha`
computed from the significance level. -/
def chi1alphaOf (alpha : ℝ) : ℝ :=
  let t := tval alpha
  t - numerPoly t / denomPoly t

/-- Lines 244-247: the critical chi-square value computed from `dof` (as a
float) and the deviate for `alpha`. -/
def chi2cOf (dof alpha : ℝ) : ℝ :=
  dof * (chi1alphaOf alpha * Real.sqrt (2 / (9 * dof)) + 1 - 2.0 / (9 * dof)) ^ 3

/-- `Adjustment.lsq_statistics` (adjustment.py lines 233-247); the method
mutates `self.adjustmentresults`, returned here.  `chi2 := VtPV[0][0]`
(line 238) and `dof` (line 239) are assigned first; then `1 / alpha`
(line 240) raises `ZeroDivisionError` when `alpha == 0`, and
`2 / (9 * dof)` with `dof = float(self.dof)` (lines 244-246) raises
`ZeroDivisionError` when `dof == 0`: the method has no `dof == 0` guard.  An
escaping exception discards the method's result, modelled by `.error`. -/
def lsq_statistics (adj : Adjustment m n Δ Κ) : Except PyExc AdjustmentResults :=
  let alpha := adj.adjustmentoptions.alpha
  if alpha = 0 then .error .zeroDivisionError
  else if adj.dof = 0 then .error .zeroDivisionError
  else .ok { adj.adjustmentresults with
              chi2 := adj.VtPV 0 0,
              dof := some adj.dof,
              chi2c := chi2cOf (adj.dof : ℝ) alpha }

/-! ### The report (`Adjustment.results_string`, lines 158-205) -/

/-- What `results_string` can return: the Gravnet free-text lines (each with a
newline appended, line 161), the structured report lines (line 203), the
empty string `''` returned by the `except (AttributeError, TypeError)`
handler (line 205), or Python's implicit `None` when neither branch of the
`if`/`elif` is taken. -/
inductive RSValue where
  | gravnetLines (lines : List String)
  | reportLines (lines : List ReportLine)
  | emptyString
  | noneValue

/-- Lines 167-180: the calibration-coefficient block.  When
`specify_cal_coeff` is set the code reads
`self.adjustmentresults.meter_cal_dict` (line 175) — an attribute no
statement of the program ever assigns (the user-specified dict lives on
`AdjustmentOptions`) — so that branch raises `AttributeError` unless the
attribute was attached from outside. -/
def cal_block (adj : Adjustment m n Δ Κ) : Except PyExc (List ReportLine) :=
  if adj.adjustmentoptions.cal_coeff then
    .ok (adj.adjustmentresults.cal_dic.map fun kv =>
      .calCoeffLine kv.1 kv.2.1 kv.2.2)
  else if adj.adjustmentoptions.specify_cal_coeff then
    match adj.adjustmentresults.meter_cal_dict with
    | none => .error .attributeError
    | some d => .ok (d.map fun kv => .specifiedCalCoeffLine kv.1 kv.2)
  else .ok []

open Classical in
/-- Lines 185-202: the drift lines of one loop entry
`(name, (offset, degree_count))`.  `self.X[...][0]` raises `IndexError`
when the computed index is out of range; the annotation variant is chosen
by `degree == 1`, where `degree` is the coefficient value read from `X`. -/
def drift_lines_for_loop (adj : Adjustment m n Δ Κ) (lp : String × ℕ × ℕ) :
    Except PyExc (List ReportLine) := do
  let lines ← (List.range lp.2.2).mapM fun i =>
    let idx := adj.sta_dic_ls.length + adj.n_meters + lp.2.1 + i
    if h : idx < n then
      let degree := adj.X ⟨idx, h⟩ 0
      Except.ok (ReportLine.driftCoeffLine (i + 1) degree
        (if degree = 1 then false else true))
    else
      Except.error PyExc.indexError
  return ReportLine.loopHeader lp.1 :: lines

/-- Lines 181-202: the network-adjustment drift block, emitted only when
`netadj_loop_keys` is non-empty. -/
def drift_block (adj : Adjustment m n Δ Κ) : Except PyExc (List ReportLine) :=
  if adj.netadj_loop_keys = [] then .ok []
  else do
    let chunks ← adj.netadj_loop_keys.mapM (drift_lines_for_loop adj)
    return ReportLine.driftHeader :: chunks.flatten

/-- `Adjustment.results_string` (adjustment.py lines 158-205).  The whole body
sits in a `try` whose `except (AttributeError, TypeError)` handler returns
`''`; other exceptions (`IndexError` from the drift block) escape. -/
def results_string (adj : Adjustment m n Δ Κ) : Except PyExc RSValue :=
  let body : Except PyExc RSValue :=
    if adj.adjustmentresults.text ≠ [] then
      .ok (.gravnetLines (adj.adjustmentresults.text.map fun x => x ++ "\n"))
    else if 0 < adj.adjustmentresults.n_unknowns then do
      let text_out ← get_report adj.adjustmentresults
      let cal ← cal_block adj
      let drift ← drift_block adj
      return .reportLines (text_out ++ cal ++ drift)
    else .ok .noneValue
  match body with
  | .error .attributeError => .ok .emptyString
  | other => other

/-! ### Concrete instances used as witnesses -/

/-- A one-observation, one-unknown adjustment: `A = P = (1)`, `Obs = (0)`,
`dof = 1`, default options and results. -/
def adj0 : Adjustment 1 1 Unit Unit where
  A := 1
  P := 1
  Obs := 0
  S := 0
  X := 0
  r := 0
  var := fun _ => 0
  VtPV := 0
  SDaposteriori := 0
  dof := 1
  n_meters := 0
  deltas := []
  datums := []
  g_dic := []
  sd_dic := []
  netadj_loop_keys := []
  sta_dic_ls := []
  adjustmentoptions := AdjustmentOptions.init
  adjustmentresults := AdjustmentResults.init

theorem normalMatrix_adj0 : normalMatrix (Δ := Unit) (Κ := Unit) adj0 = 1 := by
  simp [normalMatrix, adj0]

theorem isUnit_det_adj0 : IsUnit (normalMatrix (Δ := Unit) (Κ := Unit) adj0).det := by
  rw [normalMatrix_adj0, Matrix.det_one]
  exact isUnit_one

theorem python_lsq_inversion_adj0 :
    python_lsq_inversion adj0 = Except.ok adj0 := by
  simp [python_lsq_inversion, npLinalgInv, adj0, inv_one, Except.map]

/-- `adj0` with the zero matrix as `A`: its normal-equations matrix is
singular. -/
def adjSing : Adjustment 1 1 Unit Unit := { adj0 with A := 0 }

theorem not_isUnit_det_adjSing :
    ¬ IsUnit (normalMatrix (Δ := Unit) (Κ := Unit) adjSing).det := by
  have h : normalMatrix (Δ := Unit) (Κ := Unit) adjSing = 0 := by
    simp [normalMatrix, adjSing, adj0]
  rw [h, Matrix.det_zero ⟨0⟩]
  simp

/-- The value `python_lsq_inversion` returns when `N` is invertible,
written out. -/
theorem python_lsq_inversion_eq_ok (adj : Adjustment m n Δ Κ)
    (hN : IsUnit (normalMatrix adj).det) :
    python_lsq_inversion adj = Except.ok
      (let Ninv := (adj.Aᵀ * adj.P * adj.A)⁻¹
       let X := Ninv * adj.Aᵀ * adj.P * adj.Obs
       let r := adj.A * X - adj.Obs
       let VtPV := rᵀ * adj.P * r
       let vpn := VtPV 0 0 / (adj.dof : ℝ)
       { adj with X := X, r := r, VtPV := VtPV,
                  SDaposteriori := Real.sqrt vpn,
                  var := fun i => (vpn • Ninv) i i }) := by
  have hN2 : ((adj.Aᵀ * adj.P * adj.A).det) ≠ 0 := hN.ne_zero
  simp [python_lsq_inversion, npLinalgInv, hN2, Except.map]

/-! ### Claims about `python_lsq_inversion` -/

/-- C1: for an `Adjustment` whose `A`, `P`, `Obs` have consistent dimensions
(enforced here by the types) and whose normal-equations matrix
`N = Aᵗ·P·A` is invertible, `python_lsq_inversion` sets
`X = N⁻¹·Aᵗ·P·Obs` and `r = A·X − Obs`. -/
theorem python_lsq_inversion_solves (adj : Adjustment m n Δ Κ)
    (hN : IsUnit (normalMatrix adj).det) :
    ∃ adj2 : Adjustment m n Δ Κ, python_lsq_inversion adj = Except.ok adj2 ∧
      adj2.X = (normalMatrix adj)⁻¹ * adj.Aᵀ * adj.P * adj.Obs ∧
      adj2.r = adj.A * adj2.X - adj.Obs := by
  refine ⟨_, python_lsq_inversion_eq_ok adj hN, rfl, rfl⟩

theorem python_lsq_inversion_solves_witness :
    IsUnit (normalMatrix (Δ := Unit) (Κ := Unit) adj0).det ∧
    ∃ adj2 : Adjustment 1 1 Unit Unit, python_lsq_inversion adj0 = Except.ok adj2 ∧
      adj2.X = (normalMatrix adj0)⁻¹ * adj0.Aᵀ * adj0.P * adj0.Obs ∧
      adj2.r = adj0.A * adj2.X - adj0.Obs :=
  ⟨isUnit_det_adj0, python_lsq_inversion_solves adj0 isUnit_det_adj0⟩

/-- C2: with invertible `N` and `dof > 0`, after `python_lsq_inversion` the
weighted residual square sum is `VtPV = rᵗ·P·r`, the a-posteriori standard
deviation is `sqrt(VtPV/dof)`, and `var` is the diagonal of
`N⁻¹·(VtPV/dof)`. -/
theorem python_lsq_inversion_statistics (adj : Adjustment m n Δ Κ)
    (hN : IsUnit (normalMatrix adj).det) (hdof : 0 < adj.dof) :
    ∃ adj2 : Adjustment m n Δ Κ, python_lsq_inversion adj = Except.ok adj2 ∧
      adj2.VtPV = adj2.rᵀ * adj.P * adj2.r ∧
      adj2.SDaposteriori = Real.sqrt (adj2.VtPV 0 0 / (adj.dof : ℝ)) ∧
      ∀ i, adj2.var i = ((adj2.VtPV 0 0 / (adj.dof : ℝ)) • (normalMatrix adj)⁻¹) i i := by
  refine ⟨_, python_lsq_inversion_eq_ok adj hN, rfl, rfl, fun i => rfl⟩

theorem python_lsq_inversion_statistics_witness :
    (IsUnit (normalMatrix (Δ := Unit) (Κ := Unit) adj0).det ∧ 0 < adj0.dof) ∧
    ∃ adj2 : Adjustment 1 1 Unit Unit, python_lsq_inversion adj0 = Except.ok adj2 ∧
      adj2.VtPV = adj2.rᵀ * adj0.P * adj2.r ∧
      adj2.SDaposteriori = Real.sqrt (adj2.VtPV 0 0 / (adj0.dof : ℝ)) ∧
      ∀ i, adj2.var i = ((adj2.VtPV 0 0 / (adj0.dof : ℝ)) • (normalMatrix adj0)⁻¹) i i :=
  ⟨⟨isUnit_det_adj0, by norm_num [adj0]⟩,
    python_lsq_inversion_statistics adj0 isUnit_det_adj0 (by norm_num [adj0])⟩

/-- C5: when the normal-equations matrix is singular, `python_lsq_inversion`
raises the distinct singular-matrix error of `np.linalg.inv` (the
`LinAlgError`), and returns no numeric results at all — in particular no
NaN-filled output. -/
theorem python_lsq_inversion_singular (adj : Adjustment m n Δ Κ)
    (hN : ¬ IsUnit (normalMatrix adj).det) :
    python_lsq_inversion adj = Except.error PyExc.linAlgSingular := by
  have hN2 : ((adj.Aᵀ * adj.P * adj.A).det) = 0 := by
    by_contra hne
    exact hN (isUnit_iff_ne_zero.mpr hne)
  simp [python_lsq_inversion, npLinalgInv, hN2, Except.map]

theorem python_lsq_inversion_singular_witness :
    ¬ IsUnit (normalMatrix (Δ := Unit) (Κ := Unit) adjSing).det ∧
    python_lsq_inversion adjSing = Except.error PyExc.linAlgSingular :=
  ⟨not_isUnit_det_adjSing, python_lsq_inversion_singular adjSing not_isUnit_det_adjSing⟩

/-- C10: `python_lsq_inversion` writes only `X`, `r`, `VtPV`,
`SDaposteriori` and `var`; every other field of the `Adjustment` — in
particular `A`, `P`, `Obs`, `dof`, `deltas`, `datums` and
`adjustmentoptions` — is unchanged. -/
theorem python_lsq_inversion_frame (adj adj2 : Adjustment m n Δ Κ)
    (h : python_lsq_inversion adj = Except.ok adj2) :
    adj2.A = adj.A ∧ adj2.P = adj.P ∧ adj2.Obs = adj.Obs ∧ adj2.S = adj.S ∧
    adj2.dof = adj.dof ∧ adj2.n_meters = adj.n_meters ∧
    adj2.deltas = adj.deltas ∧ adj2.datums = adj.datums ∧
    adj2.g_dic = adj.g_dic ∧ adj2.sd_dic = adj.sd_dic ∧
    adj2.netadj_loop_keys = adj.netadj_loop_keys ∧
    adj2.sta_dic_ls = adj.sta_dic_ls ∧
    adj2.adjustmentoptions = adj.adjustmentoptions ∧
    adj2.adjustmentresults = adj.adjustmentresults := by
  classical
  rw [python_lsq_inversion, npLinalgInv] at h
  split at h
  · simp only [Except.map, Except.ok.injEq] at h
    subst h
    exact ⟨rfl, rfl, rfl, rfl, rfl, rfl, rfl, rfl, rfl, rfl, rfl, rfl, rfl, rfl⟩
  · simp [Except.map] at h

theorem python_lsq_inversion_frame_witness :
    python_lsq_inversion adj0 = Except.ok adj0 ∧
    (adj0.A = adj0.A ∧ adj0.P = adj0.P ∧ adj0.Obs = adj0.Obs ∧ adj0.S = adj0.S ∧
    adj0.dof = adj0.dof ∧ adj0.n_meters = adj0.n_meters ∧
    adj0.deltas = adj0.deltas ∧ adj0.datums = adj0.datums ∧
    adj0.g_dic = adj0.g_dic ∧ adj0.sd_dic = adj0.sd_dic ∧
    adj0.netadj_loop_keys = adj0.netadj_loop_keys ∧
    adj0.sta_dic_ls = adj0.sta_dic_ls ∧
    adj0.adjustmentoptions = adj0.adjustmentoptions ∧
    adj0.adjustmentresults = adj0.adjustmentresults) :=
  ⟨python_lsq_inversion_adj0,
    python_lsq_inversion_frame adj0 adj0 python_lsq_inversion_adj0⟩

/-! ### Claims about `lsq_statistics` and the report -/

/-- C3: with `dof > 0` and `0 < alpha < 1`, `lsq_statistics` stores
`chi2 = VtPV[0][0]` and
`chi2c = dof·(z·sqrt(2/(9·dof)) + 1 − 2/(9·dof))³` where
`t = sqrt(2·ln(1/alpha))` and `z` is the stated rational approximation of the
inverse normal CDF. -/
theorem lsq_statistics_formulas (adj : Adjustment m n Δ Κ)
    (hdof : 0 < adj.dof) (halpha0 : 0 < adj.adjustmentoptions.alpha)
    (halpha1 : adj.adjustmentoptions.alpha < 1) :
    ∃ res : AdjustmentResults, lsq_statistics adj = Except.ok res ∧
      res.chi2 = adj.VtPV 0 0 ∧
      res.chi2c =
        (adj.dof : ℝ) *
          ((Real.sqrt (2 * Real.log (1 / adj.adjustmentoptions.alpha)) -
              (2.515517 +
                0.802853 * Real.sqrt (2 * Real.log (1 / adj.adjustmentoptions.alpha)) +
                0.010328 * Real.sqrt (2 * Real.log (1 / adj.adjustmentoptions.alpha)) ^ 2) /
              (1 + 1.432788 * Real.sqrt (2 * Real.log (1 / adj.adjustmentoptions.alpha)) +
                0.189269 * Real.sqrt (2 * Real.log (1 / adj.adjustmentoptions.alpha)) ^ 2 +
                0.001308 * Real.sqrt (2 * Real.log (1 / adj.adjustmentoptions.alpha)) ^ 3)) *
            Real.sqrt (2 / (9 * (adj.dof : ℝ))) + 1 - 2 / (9 * (adj.dof : ℝ))) ^ 3 := by
  have ha : adj.adjustmentoptions.alpha ≠ 0 := ne_of_gt halpha0
  have hd : adj.dof ≠ 0 := ne_of_gt hdof
  refine ⟨{ adj.adjustmentresults with
              chi2 := adj.VtPV 0 0,
              dof := some adj.dof,
              chi2c := chi2cOf (adj.dof : ℝ) adj.adjustmentoptions.alpha }, ?_, rfl, ?_⟩
  · simp only [lsq_statistics]
    rw [if_neg ha, if_neg hd]
  · show chi2cOf (adj.dof : ℝ) adj.adjustmentoptions.alpha = _
    norm_num [chi2cOf, chi1alphaOf, numerPoly, denomPoly, tval]

theorem lsq_statistics_formulas_witness :
    ((0 : ℤ) < adj0.dof ∧ 0 < adj0.adjustmentoptions.alpha ∧
      adj0.adjustmentoptions.alpha < 1) ∧
    ∃ res : AdjustmentResults, lsq_statistics adj0 = Except.ok res ∧
      res.chi2 = adj0.VtPV 0 0 ∧
      res.chi2c =
        (adj0.dof : ℝ) *
          ((Real.sqrt (2 * Real.log (1 / adj0.adjustmentoptions.alpha)) -
              (2.515517 +
                0.802853 * Real.sqrt (2 * Real.log (1 / adj0.adjustmentoptions.alpha)) +
                0.010328 * Real.sqrt (2 * Real.log (1 / adj0.adjustmentoptions.alpha)) ^ 2) /
              (1 + 1.432788 * Real.sqrt (2 * Real.log (1 / adj0.adjustmentoptions.alpha)) +
                0.189269 * Real.sqrt (2 * Real.log (1 / adj0.adjustmentoptions.alpha)) ^ 2 +
                0.001308 * Real.sqrt (2 * Real.log (1 / adj0.adjustmentoptions.alpha)) ^ 3)) *
            Real.sqrt (2 / (9 * (adj0.dof : ℝ))) + 1 - 2 / (9 * (adj0.dof : ℝ))) ^ 3 :=
  ⟨⟨by norm_num [adj0], by norm_num [adj0, AdjustmentOptions.init],
      by norm_num [adj0, AdjustmentOptions.init]⟩,
    lsq_statistics_formulas adj0 (by norm_num [adj0])
      (by norm_num [adj0, AdjustmentOptions.init])
      (by norm_num [adj0, AdjustmentOptions.init])⟩

/-- `adj0` with `dof = 0`: the input of the C4 counterexample. -/
def adjDof0 : Adjustment 1 1 Unit Unit := { adj0 with dof := 0 }

/-- C4 counterexample: on a concrete adjustment with `dof = 0` the chi-square
stage performs the division by zero — `lsq_statistics` raises
`ZeroDivisionError` (at `2 / (9 * dof)`, line 245) and produces no report at
all, in particular no "not applicable" one. -/
theorem lsq_statistics_dof_zero_cex :
    lsq_statistics adjDof0 = Except.error PyExc.zeroDivisionError ∧
    ∀ res : AdjustmentResults, lsq_statistics adjDof0 ≠ Except.ok res := by
  constructor
  · simp [lsq_statistics, adjDof0, adj0, AdjustmentOptions.init]
  · intro res h
    rw [show lsq_statistics adjDof0 = Except.error PyExc.zeroDivisionError from by
          simp [lsq_statistics, adjDof0, adj0, AdjustmentOptions.init]] at h
    exact Except.noConfusion h

/-- C4 (amended): for every adjustment with `dof == 0` the chi-square stage
(`lsq_statistics`) performs a float division by zero and raises
`ZeroDivisionError`; the code contains no `dof == 0` guard and never reports
the test as "not applicable". -/
theorem lsq_statistics_dof_zero (adj : Adjustment m n Δ Κ) (hdof : adj.dof = 0) :
    lsq_statistics adj = Except.error PyExc.zeroDivisionError := by
  by_cases ha : adj.adjustmentoptions.alpha = 0 <;>
    simp [lsq_statistics, hdof, ha]

theorem lsq_statistics_dof_zero_witness :
    adjDof0.dof = 0 ∧
    lsq_statistics adjDof0 = Except.error PyExc.zeroDivisionError :=
  ⟨rfl, lsq_statistics_dof_zero adjDof0 rfl⟩

open Classical in
/-- The report `get_report` returns when the stored `dof` is assigned and
non-zero, written out. -/
theorem get_report_ok (ar : AdjustmentResults) (d : ℤ)
    (hdof : ar.dof = some d) (hd : d ≠ 0) :
    get_report ar = Except.ok
      [ .nUnknowns ar.n_unknowns,
        .nDeltas ar.n_deltas,
        .nDatums ar.n_datums,
        .dofLine d,
        .sdAposteriori (ar.chi2 / (d : ℝ)),
        .chi2Line ar.chi2,
        .chi2cLine ar.chi2c,
        .chiTest (if ar.chi2 < ar.chi2c then "accepted" else "rejected"),
        .avgStdev ar.avg_stdev,
        .maxDgResidual ar.max_dg_residual,
        .maxDatumResidual ar.max_datum_residual,
        .minDatumResidual ar.min_datum_residual ] := by
  unfold get_report
  rw [hdof]
  simp [hd]

/-- `AdjustmentResults` with the stored `dof` equal to `0` and
`chi2 < chi2c`: the input of the C6 counterexample. -/
def arDiv0 : AdjustmentResults :=
  { AdjustmentResults.init with dof := some 0, chi2 := 0, chi2c := 1 }

/-- C6 counterexample: on a concrete `AdjustmentResults` with the stored
`dof = 0` and `chi2 < chi2c`, `get_report` raises `ZeroDivisionError` at
`self.chi2 / self.dof` (line 53) and produces no report at all — in
particular no line declares the adjustment "accepted" although
`chi2 < chi2c` holds, so the unconditional claim fails. -/
theorem get_report_dof_zero_cex :
    arDiv0.chi2 < arDiv0.chi2c ∧
    get_report arDiv0 = Except.error PyExc.zeroDivisionError ∧
    ∀ lines : List ReportLine, get_report arDiv0 ≠ Except.ok lines := by
  refine ⟨by norm_num [arDiv0, AdjustmentResults.init], rfl, ?_⟩
  intro lines h
  rw [show get_report arDiv0 = Except.error PyExc.zeroDivisionError from rfl] at h
  exact Except.noConfusion h

/-- C6 (amended): for every `AdjustmentResults` whose stored `dof` is
assigned and non-zero, the report exists and declares the chi-square test
"accepted" exactly when `chi2 < chi2c` holds strictly, "rejected" otherwise
— in particular at the boundary `chi2 = chi2c` it says "rejected".  (With
`dof` equal to `0` or never assigned, `get_report` raises at lines 52-53 and
declares no verdict.) -/
theorem get_report_chi_test (ar : AdjustmentResults) (d : ℤ)
    (hdof : ar.dof = some d) (hd : d ≠ 0) :
    ∃ lines : List ReportLine, get_report ar = Except.ok lines ∧
      (ReportLine.chiTest "accepted" ∈ lines ↔ ar.chi2 < ar.chi2c) ∧
      (ReportLine.chiTest "rejected" ∈ lines ↔ ¬ ar.chi2 < ar.chi2c) ∧
      (ar.chi2 = ar.chi2c → ReportLine.chiTest "rejected" ∈ lines) := by
  refine ⟨_, get_report_ok ar d hdof hd, ?_, ?_, ?_⟩
  · by_cases h : ar.chi2 < ar.chi2c <;> simp [h]
  · by_cases h : ar.chi2 < ar.chi2c <;> simp [h]
  · intro heq
    have h : ¬ ar.chi2 < ar.chi2c := by
      rw [heq]
      exact lt_irrefl _
    simp [h]

/-- A populated `AdjustmentResults` (stored `dof = 2`) used to instantiate
C6 and C7. -/
def arSample : AdjustmentResults :=
  { AdjustmentResults.init with dof := some 2, chi2 := 3, chi2c := 7 }

theorem get_report_chi_test_witness :
    (arSample.dof = some 2 ∧ (2:ℤ) ≠ 0) ∧
    ∃ lines : List ReportLine, get_report arSample = Except.ok lines ∧
      (ReportLine.chiTest "accepted" ∈ lines ↔ arSample.chi2 < arSample.chi2c) ∧
      (ReportLine.chiTest "rejected" ∈ lines ↔ ¬ arSample.chi2 < arSample.chi2c) ∧
      (arSample.chi2 = arSample.chi2c → ReportLine.chiTest "rejected" ∈ lines) :=
  ⟨⟨rfl, by decide⟩, get_report_chi_test arSample 2 rfl (by decide)⟩

/-- C7: on the report's success path (stored `dof` assigned and non-zero)
the "SD a posteriori" line carries the raw ratio `chi2/dof` (and only that
value) — not `sqrt(chi2/dof)`. -/
theorem get_report_sd_aposteriori (ar : AdjustmentResults) (d : ℤ)
    (hdof : ar.dof = some d) (hd : d ≠ 0) :
    ∃ lines : List ReportLine, get_report ar = Except.ok lines ∧
      ReportLine.sdAposteriori (ar.chi2 / (d : ℝ)) ∈ lines ∧
      ∀ v : ℝ, ReportLine.sdAposteriori v ∈ lines → v = ar.chi2 / (d : ℝ) := by
  refine ⟨_, get_report_ok ar d hdof hd, ?_, ?_⟩
  · simp
  · intro v hv
    simpa using hv

theorem get_report_sd_aposteriori_witness :
    (arSample.dof = some 2 ∧ (2:ℤ) ≠ 0) ∧
    ∃ lines : List ReportLine, get_report arSample = Except.ok lines ∧
      ReportLine.sdAposteriori (arSample.chi2 / ((2:ℤ) : ℝ)) ∈ lines ∧
      ∀ v : ℝ, ReportLine.sdAposteriori v ∈ lines →
        v = arSample.chi2 / ((2:ℤ) : ℝ) :=
  ⟨⟨rfl, by decide⟩, get_report_sd_aposteriori arSample 2 rfl (by decide)⟩

/-- The C9 failing input: structured results populated (`n_unknowns = 2`,
`text = []`, stored `dof = 1` as after a successful `lsq_statistics` call),
user-specified calibration mode switched on (`specify_cal_coeff = True`,
`cal_coeff = False`) with the user's dict on the options object — while
`adjustmentresults.meter_cal_dict`, the attribute `results_string` actually
reads at line 175, was never assigned by any code. -/
def adjC9 : Adjustment 1 1 Unit Unit :=
  { adj0 with
    adjustmentoptions := { AdjustmentOptions.init with
        specify_cal_coeff := true,
        meter_cal_dict := some [("B44", 1.000234)] },
    adjustmentresults := { AdjustmentResults.init with
        n_unknowns := 2, dof := some 1 } }

/-- C9, code evaluated at the failing input: in user-specified calibration
mode `results_string` reads the never-assigned
`adjustmentresults.meter_cal_dict` (line 175), the `AttributeError` is
swallowed by the handler at line 204-205, and the whole report collapses to
the empty string — no specified-coefficient line (and no report line at all)
is appended, contradicting the claimed behaviour. -/
theorem results_string_specified_cal_is_empty :
    results_string adjC9 = Except.ok RSValue.emptyString ∧
    ∀ lines : List ReportLine,
      results_string adjC9 ≠ Except.ok (RSValue.reportLines lines) := by
  constructor
  · rfl
  · intro lines h
    rw [show results_string adjC9 = Except.ok RSValue.emptyString from rfl] at h
    simp at h

/-! ### Monotonicity analysis of the critical chi-square value (C8)

`chi2cOf dof alpha = dof * (z * sqrt(2/(9 dof)) + 1 - 2/(9 dof))^3` with
`z = zfun (tval alpha)`.  The deviate `z(t) = t - N(t)/D(t)` is strictly
increasing in `t ≥ 0` because `N/D` is non-increasing: the cross term
`N(u)·D(v) - N(v)·D(u)` factors as `(v - u) · crossPoly u v` with
`crossPoly` manifestly non-negative for `u, v ≥ 0`. -/

/-- The deviate as a function of `t` (the body of lines 240-243). -/
def zfun (t : ℝ) : ℝ := t - numerPoly t / denomPoly t

theorem cube_lt_cube {x y : ℝ} (h : x < y) : x ^ 3 < y ^ 3 :=
  Odd.strictMono_pow (⟨1, by norm_num⟩ : Odd 3) h

theorem chi2cOf_eq (d alpha : ℝ) :
    chi2cOf d alpha =
      d * (zfun (tval alpha) * Real.sqrt (2 / (9 * d)) + 1 - 2 / (9 * d)) ^ 3 := by
  unfold chi2cOf
  rw [show chi1alphaOf alpha = zfun (tval alpha) from rfl]
  norm_num

/-- The factored antisymmetric cross term of `N(u)·D(v) - N(v)·D(u)`. -/
def crossPoly (u v : ℝ) : ℝ :=
  (2.515517 * 1.432788 - 0.802853) +
  (2.515517 * 0.189269 - 0.010328) * (u + v) +
  (2.515517 * 0.001308) * (u ^ 2 + u * v + v ^ 2) +
  (0.802853 * 0.189269 - 0.010328 * 1.432788) * (u * v) +
  (0.802853 * 0.001308) * (u * v * (u + v)) +
  (0.010328 * 0.001308) * (u ^ 2 * v ^ 2)

theorem cross_identity (u v : ℝ) :
    numerPoly u * denomPoly v - numerPoly v * denomPoly u =
      (v - u) * crossPoly u v := by
  unfold numerPoly denomPoly crossPoly
  ring

theorem crossPoly_nonneg {u v : ℝ} (hu : 0 ≤ u) (hv : 0 ≤ v) :
    0 ≤ crossPoly u v := by
  have h1 : 0 ≤ u * v := mul_nonneg hu hv
  have h2 : 0 ≤ u + v := add_nonneg hu hv
  have h3 : 0 ≤ u ^ 2 + u * v + v ^ 2 := by positivity
  have h4 : 0 ≤ u * v * (u + v) := mul_nonneg h1 h2
  have h5 : 0 ≤ u ^ 2 * v ^ 2 := by positivity
  unfold crossPoly
  nlinarith [h1, h2, h3, h4, h5]

theorem denomPoly_pos {t : ℝ} (ht : 0 ≤ t) : 0 < denomPoly t := by
  unfold denomPoly
  nlinarith [pow_nonneg ht 2, pow_nonneg ht 3, ht]

theorem numerPoly_pos {t : ℝ} (ht : 0 ≤ t) : 0 < numerPoly t := by
  unfold numerPoly
  nlinarith [pow_nonneg ht 2, ht]

theorem zfun_strictMono {u v : ℝ} (hu : 0 ≤ u) (huv : u < v) :
    zfun u < zfun v := by
  have hv : 0 ≤ v := le_trans hu huv.le
  have hdu := denomPoly_pos hu
  have hdv := denomPoly_pos hv
  have hcross := crossPoly_nonneg hu hv
  have hid := cross_identity u v
  have hR : numerPoly v / denomPoly v ≤ numerPoly u / denomPoly u := by
    rw [div_le_div_iff hdv hdu]
    nlinarith [mul_nonneg (sub_nonneg.mpr huv.le) hcross]
  unfold zfun
  linarith

theorem zfun_lt_self {t : ℝ} (ht : 0 ≤ t) : zfun t < t := by
  have := div_pos (numerPoly_pos ht) (denomPoly_pos ht)
  unfold zfun
  linarith

theorem zfun_lower {t : ℝ} (ht : 0 ≤ t) : -2.515517 ≤ zfun t := by
  have hdt := denomPoly_pos ht
  have hcross := crossPoly_nonneg le_rfl ht
  have hid := cross_identity 0 t
  have h0n : numerPoly 0 = 2.515517 := by norm_num [numerPoly]
  have h0d : denomPoly 0 = 1 := by norm_num [denomPoly]
  rw [h0n, h0d] at hid
  have hR : numerPoly t / denomPoly t ≤ 2.515517 := by
    rw [div_le_iff hdt]
    nlinarith [mul_nonneg ht hcross]
  unfold zfun
  linarith

theorem tval_nonneg (alpha : ℝ) : 0 ≤ tval alpha := Real.sqrt_nonneg _

theorem tval_lt_tval {a b : ℝ} (ha0 : 0 < a) (hab : a < b) (hb1 : b < 1) :
    tval b < tval a := by
  unfold tval
  have hb0 : 0 < b := lt_trans ha0 hab
  have h1 : (1:ℝ) < 1 / b := by
    rw [lt_div_iff hb0]
    linarith
  have hlb : 0 < Real.log (1 / b) := Real.log_pos h1
  have hlog : Real.log (1 / b) < Real.log (1 / a) := by
    apply Real.log_lt_log (by positivity)
    exact one_div_lt_one_div_of_lt ha0 hab
  exact Real.sqrt_lt_sqrt (by linarith) (by linarith)

set_option maxHeartbeats 1600000 in
/-- The polynomial core of the step `dof → dof + 1`: with
`a = sqrt(2/(9d))`, `b = sqrt(2/(9(d+1)))` abstracted into variables. -/
theorem chi2c_step_core {a b z d : ℝ} (hd : 5 ≤ d)
    (hapos : 0 < a) (hbpos : 0 < b) (hba : b < a)
    (ha2 : a ^ 2 = 2 / (9 * d)) (hb2 : b ^ 2 = 2 / (9 * (d + 1)))
    (hz5 : z ≤ 5) (hzl : -2.515517 ≤ z) :
    d * (z * a + 1 - 2 / (9 * d)) ^ 3 <
      (d + 1) * (z * b + 1 - 2 / (9 * (d + 1))) ^ 3 := by
  rw [← ha2, ← hb2]
  have hd0 : (0:ℝ) < d := by linarith
  have hd10 : (0:ℝ) < d + 1 := by linarith
  have hstar : 2 * a ^ 2 - 2 * b ^ 2 = 9 * (a ^ 2 * b ^ 2) := by
    rw [ha2, hb2]
    field_simp
    ring
  have ha45 : a ^ 2 ≤ 2 / 45 := by
    rw [ha2, div_le_div_iff (by positivity) (by norm_num)]
    nlinarith
  have hb54 : b ^ 2 ≤ 1 / 27 := by
    rw [hb2, div_le_div_iff (by positivity) (by norm_num)]
    nlinarith
  have haU : a ≤ 0.2109 := by
    nlinarith [ha45, hapos, sq_nonneg (a - 0.2109)]
  by_cases hcz : z ≤ a + b
  · -- easy case: the deviate is small, the cubed factor does not decrease
    have hwb_ge : z * a + 1 - a ^ 2 ≤ z * b + 1 - b ^ 2 := by
      nlinarith [mul_nonneg (sub_nonneg.mpr hba.le) (sub_nonneg.mpr hcz)]
    have hwa_pos : 0 < z * a + 1 - a ^ 2 := by
      nlinarith [mul_le_mul_of_nonneg_right hzl hapos.le, haU, ha45]
    have hcube := pow_le_pow_left hwa_pos.le hwb_ge 3
    nlinarith [pow_pos hwa_pos 3, mul_le_mul_of_nonneg_left hcube hd10.le]
  · -- hard case: the cubed factor shrinks, but slower than `d` grows
    push_neg at hcz
    have hz0 : 0 < z := lt_trans (by positivity) hcz
    have hwa_lb : 43 / 45 + z * a ≤ z * a + 1 - a ^ 2 := by nlinarith [ha45]
    have hwa_pos : 0 < z * a + 1 - a ^ 2 := by
      nlinarith [mul_pos hz0 hapos, ha45]
    have haz : a * z ≤ 1.0545 := by
      have h := mul_le_mul haU hz5 hz0.le (by norm_num : (0:ℝ) ≤ 0.2109)
      linarith [h]
    have hδ_az : (a - b) * (z - (a + b)) ≤ a * z := by
      have e1 : (a - b) * (z - (a + b)) ≤ (a - b) * z :=
        mul_le_mul_of_nonneg_left (by linarith) (by linarith)
      have e2 : (a - b) * z ≤ a * z :=
        mul_le_mul_of_nonneg_right (by linarith) hz0.le
      linarith
    have hδ3 : (a - b) * (z - (a + b)) ≤ 3 * (z * a + 1 - a ^ 2) := by
      have e3 : 0 ≤ z * a := mul_nonneg hz0.le hapos.le
      linarith [hδ_az, haz, hwa_lb, e3]
    have hdiff2 : (a - b) * (2 * b) < (9 / 2) * (a ^ 2 * b ^ 2) := by
      have hsq : 0 < (a - b) ^ 2 := pow_pos (sub_pos.mpr hba) 2
      have hid : (a - b) * (2 * b) = (a ^ 2 - b ^ 2) - (a - b) ^ 2 := by ring
      have hab2 : a ^ 2 - b ^ 2 = (9 / 2) * (a ^ 2 * b ^ 2) := by linarith [hstar]
      rw [hid, hab2]
      linarith
    have hdiff : a - b < (9 / 4) * (a ^ 2 * b) := by
      have h3 : (a - b) * (2 * b) < ((9 / 4) * (a ^ 2 * b)) * (2 * b) := by
        have h4 : ((9 / 4) * (a ^ 2 * b)) * (2 * b) = (9 / 2) * (a ^ 2 * b ^ 2) := by
          ring
        rw [h4]
        exact hdiff2
      exact lt_of_mul_lt_mul_right h3 (by linarith)
    have hδ_lt : (a - b) * (z - (a + b)) < (9 / 4) * (a ^ 2 * b) * z := by
      have h1 : (a - b) * (z - (a + b)) ≤ (a - b) * z :=
        mul_le_mul_of_nonneg_left (by linarith) (by linarith)
      have h2 : (a - b) * z < (9 / 4) * (a ^ 2 * b) * z :=
        (mul_lt_mul_right hz0).mpr hdiff
      linarith
    have hb2' : b ^ 2 * (2 + 9 * a ^ 2) = 2 * a ^ 2 := by linarith [hstar]
    have h56 : (5 / 6) * a ^ 2 ≤ b ^ 2 := by
      have h27 : a ^ 2 * b ^ 2 ≤ a ^ 2 * (1 / 27) :=
        mul_le_mul_of_nonneg_left hb54 (sq_nonneg a)
      have hexp : 2 * b ^ 2 + 9 * (a ^ 2 * b ^ 2) = 2 * a ^ 2 := by
        linarith [hb2']
      linarith [h27, hexp]
    have hb_lb : 0.9128 * a ≤ b := by
      have hsum : (0:ℝ) < 0.9128 * a + b := by positivity
      nlinarith [h56, hsum, pow_pos hapos 2]
    have hwab : ((43:ℝ) / 45 + z * a) * (0.9128 * a) ≤ (z * a + 1 - a ^ 2) * b :=
      mul_le_mul hwa_lb hb_lb (by positivity) hwa_pos.le
    have hkey : (3 / 2) * (a ^ 2 * z) < (z * a + 1 - a ^ 2) * b := by
      have h1 : a * z * a ≤ 1.0545 * a := mul_le_mul_of_nonneg_right haz hapos.le
      nlinarith [hwab, h1, hapos]
    have hdb2 : (d + 1) * b ^ 2 = 2 / 9 := by
      rw [hb2]
      field_simp
      ring
    have h3d : 3 * (d + 1) * ((a - b) * (z - (a + b))) * b < (3 / 2) * (a ^ 2 * z) := by
      have hpos : (0:ℝ) < 3 * (d + 1) * b := by positivity
      have h5 := (mul_lt_mul_left hpos).mpr hδ_lt
      calc 3 * (d + 1) * ((a - b) * (z - (a + b))) * b
          = 3 * (d + 1) * b * ((a - b) * (z - (a + b))) := by ring
        _ < 3 * (d + 1) * b * ((9 / 4) * (a ^ 2 * b) * z) := h5
        _ = (27 / 4) * (a ^ 2 * z) * ((d + 1) * b ^ 2) := by ring
        _ = (27 / 4) * (a ^ 2 * z) * (2 / 9) := by rw [hdb2]
        _ = (3 / 2) * (a ^ 2 * z) := by ring
    have hcore : 3 * (d + 1) * ((a - b) * (z - (a + b))) < z * a + 1 - a ^ 2 := by
      have h6 : 3 * (d + 1) * ((a - b) * (z - (a + b))) * b <
          (z * a + 1 - a ^ 2) * b := lt_trans h3d hkey
      exact lt_of_mul_lt_mul_right h6 hbpos.le
    have hcube : (z * a + 1 - a ^ 2) ^ 3 -
        3 * (z * a + 1 - a ^ 2) ^ 2 * ((a - b) * (z - (a + b))) ≤
        (z * b + 1 - b ^ 2) ^ 3 := by
      have hident : z * b + 1 - b ^ 2 =
          (z * a + 1 - a ^ 2) - (a - b) * (z - (a + b)) := by ring
      rw [hident]
      nlinarith [mul_nonneg (sq_nonneg ((a - b) * (z - (a + b))))
        (by linarith [hδ3] :
          0 ≤ 3 * (z * a + 1 - a ^ 2) - (a - b) * (z - (a + b)))]
    have h7 : 0 < (z * a + 1 - a ^ 2) ^ 2 *
        ((z * a + 1 - a ^ 2) - 3 * (d + 1) * ((a - b) * (z - (a + b)))) :=
      mul_pos (pow_pos hwa_pos 2) (by linarith)
    nlinarith [h7, mul_le_mul_of_nonneg_left hcube hd10.le]

/-- The step `chi2cOf d < chi2cOf (d+1)` for real `d ≥ 5` whenever the
deviate is at most `5`. -/
theorem chi2cOf_lt_succ {d alpha : ℝ} (hd : 5 ≤ d)
    (hz5 : zfun (tval alpha) ≤ 5) :
    chi2cOf d alpha < chi2cOf (d + 1) alpha := by
  have hd0 : (0:ℝ) < d := by linarith
  have hd10 : (0:ℝ) < d + 1 := by linarith
  have hqa : (0:ℝ) < 2 / (9 * d) := by positivity
  have hqb : (0:ℝ) < 2 / (9 * (d + 1)) := by positivity
  rw [chi2cOf_eq, chi2cOf_eq]
  exact chi2c_step_core hd
    (Real.sqrt_pos.mpr hqa) (Real.sqrt_pos.mpr hqb)
    (Real.sqrt_lt_sqrt hqb.le
      (by rw [div_lt_div_iff (by positivity) (by positivity)]; nlinarith))
    (Real.sq_sqrt hqa.le) (Real.sq_sqrt hqb.le)
    hz5 (zfun_lower (tval_nonneg alpha))

/-- Chained version over natural degrees of freedom. -/
theorem chi2cOf_mono_nat {alpha : ℝ} (hz5 : zfun (tval alpha) ≤ 5) :
    ∀ k l : ℕ, 5 ≤ k → k < l → chi2cOf (k : ℝ) alpha < chi2cOf (l : ℝ) alpha := by
  intro k l h5 hkl
  induction l with
  | zero => omega
  | succ l ih =>
    have hcast : ((l + 1 : ℕ) : ℝ) = (l : ℝ) + 1 := by push_cast; ring
    rcases Nat.lt_succ_iff_lt_or_eq.mp hkl with h | h
    · refine lt_trans (ih h) ?_
      rw [hcast]
      exact chi2cOf_lt_succ (by exact_mod_cast Nat.le_of_lt (Nat.lt_of_le_of_lt h5 h)) hz5
    · subst h
      rw [hcast]
      exact chi2cOf_lt_succ (by exact_mod_cast h5) hz5

theorem chi2cOf_anti_alpha {d a1 a2 : ℝ} (hd : 0 < d)
    (ha0 : 0 < a1) (h12 : a1 < a2) (h21 : a2 < 1) :
    chi2cOf d a2 < chi2cOf d a1 := by
  have hz : zfun (tval a2) < zfun (tval a1) :=
    zfun_strictMono (tval_nonneg a2) (tval_lt_tval ha0 h12 h21)
  have hs : 0 < Real.sqrt (2 / (9 * d)) := Real.sqrt_pos.mpr (by positivity)
  rw [chi2cOf_eq, chi2cOf_eq]
  have hinner : zfun (tval a2) * Real.sqrt (2 / (9 * d)) + 1 - 2 / (9 * d) <
      zfun (tval a1) * Real.sqrt (2 / (9 * d)) + 1 - 2 / (9 * d) := by
    nlinarith [mul_lt_mul_of_pos_right hz hs]
  exact mul_lt_mul_of_pos_left (cube_lt_cube hinner) hd

/-- C8 (amended): the critical value is strictly increasing in `dof ≥ 5` for
fixed `alpha` provided `alpha ≥ exp(−25/2) ≈ 3.7·10⁻⁶` (so that the deviate
`z ≤ 5`; for much smaller `alpha` the claim fails, see the counterexample),
and for fixed `dof ≥ 5` it is strictly increasing as `alpha` decreases within
`(0, 1)`. -/
theorem chi2c_monotonicity_amended :
    (∀ alpha : ℝ, Real.exp (-(25 / 2)) ≤ alpha → alpha < 1 →
      ∀ k l : ℕ, 5 ≤ k → k < l →
        chi2cOf (k : ℝ) alpha < chi2cOf (l : ℝ) alpha) ∧
    (∀ d : ℕ, 5 ≤ d → ∀ a1 a2 : ℝ, 0 < a1 → a1 < a2 → a2 < 1 →
      chi2cOf (d : ℝ) a2 < chi2cOf (d : ℝ) a1) := by
  constructor
  · intro alpha hlow h1 k l h5 hkl
    have halpha0 : 0 < alpha := lt_of_lt_of_le (Real.exp_pos _) hlow
    have hz5 : zfun (tval alpha) ≤ 5 := by
      have ht5 : tval alpha ≤ 5 := by
        unfold tval
        have hinv : 1 / alpha ≤ Real.exp (25 / 2) := by
          rw [div_le_iff halpha0]
          calc (1:ℝ) = Real.exp (25 / 2) * Real.exp (-(25 / 2)) := by
                rw [← Real.exp_add]
                norm_num
            _ ≤ Real.exp (25 / 2) * alpha :=
                mul_le_mul_of_nonneg_left hlow (Real.exp_pos _).le
        have h2 : Real.log (1 / alpha) ≤ 25 / 2 := by
          calc Real.log (1 / alpha) ≤ Real.log (Real.exp (25 / 2)) :=
                Real.log_le_log (by positivity) hinv
            _ = 25 / 2 := Real.log_exp _
        calc Real.sqrt (2 * Real.log (1 / alpha)) ≤ Real.sqrt 25 := by
              apply Real.sqrt_le_sqrt
              linarith
          _ = 5 := by
              rw [show (25:ℝ) = 5 ^ 2 by norm_num,
                Real.sqrt_sq (by norm_num : (0:ℝ) ≤ 5)]
      linarith [zfun_lt_self (tval_nonneg alpha)]
    exact chi2cOf_mono_nat hz5 k l h5 hkl
  · intro d hd a1 a2 h0 h12 h21
    have hd0 : 0 < d := by omega
    exact chi2cOf_anti_alpha (by exact_mod_cast hd0) h0 h12 h21

/-- The numeric core of the C8 counterexample: at `alpha = exp(−72)` (where
`t = 12` exactly and the deviate is the rational `z = 558864007/47708416 ≈
11.714`) the critical value at `dof = 6` is below the one at `dof = 5`. -/
theorem chi2cOf_exp72_six_lt_five :
    chi2cOf 6 (Real.exp (-72)) < chi2cOf 5 (Real.exp (-72)) := by
  have ht : tval (Real.exp (-72)) = 12 := by
    unfold tval
    rw [one_div, ← Real.exp_neg, neg_neg, Real.log_exp,
      show (2:ℝ) * 72 = 12 ^ 2 by norm_num,
      Real.sqrt_sq (by norm_num : (0:ℝ) ≤ 12)]
  have hz : zfun (tval (Real.exp (-72))) = 558864007 / 47708416 := by
    rw [ht]
    unfold zfun numerPoly denomPoly
    norm_num
  rw [chi2cOf_eq, chi2cOf_eq, hz]
  have hz0 : (0:ℝ) < 558864007 / 47708416 := by norm_num
  have hs6 : Real.sqrt (2 / (9 * 6)) < 0.19246 := by
    rw [Real.sqrt_lt' (by norm_num : (0:ℝ) < 0.19246)]
    norm_num
  have hs5 : (0.21081:ℝ) < Real.sqrt (2 / (9 * 5)) := by
    rw [Real.lt_sqrt (by norm_num : (0:ℝ) ≤ 0.21081)]
    norm_num
  have hb6 : 558864007 / 47708416 * Real.sqrt (2 / (9 * 6)) + 1 - 2 / (9 * 6) <
      558864007 / 47708416 * (0.19246:ℝ) + 1 - 2 / (9 * 6) := by
    have h := mul_lt_mul_of_pos_left hs6 hz0
    linarith
  have hb6nn : (0:ℝ) ≤ 558864007 / 47708416 * Real.sqrt (2 / (9 * 6)) + 1 - 2 / (9 * 6) := by
    have h : (0:ℝ) ≤ 558864007 / 47708416 * Real.sqrt (2 / (9 * 6)) := by positivity
    have h2 : (2:ℝ) / (9 * 6) ≤ 1 := by norm_num
    linarith
  have hb5 : 558864007 / 47708416 * (0.21081:ℝ) + 1 - 2 / (9 * 5) <
      558864007 / 47708416 * Real.sqrt (2 / (9 * 5)) + 1 - 2 / (9 * 5) := by
    have h := mul_lt_mul_of_pos_left hs5 hz0
    linarith
  have hb5nn : (0:ℝ) ≤ 558864007 / 47708416 * (0.21081:ℝ) + 1 - 2 / (9 * 5) := by
    norm_num
  have hcube6 := pow_lt_pow_left hb6 hb6nn (three_ne_zero)
  have hcube5 := pow_lt_pow_left hb5 hb5nn (three_ne_zero)
  have hgap : 6 * (558864007 / 47708416 * (0.19246:ℝ) + 1 - 2 / (9 * 6)) ^ 3 <
      5 * (558864007 / 47708416 * (0.21081:ℝ) + 1 - 2 / (9 * 5)) ^ 3 := by
    norm_num
  calc 6 * (558864007 / 47708416 * Real.sqrt (2 / (9 * 6)) + 1 - 2 / (9 * 6)) ^ 3
      < 6 * (558864007 / 47708416 * (0.19246:ℝ) + 1 - 2 / (9 * 6)) ^ 3 := by
        linarith [hcube6]
    _ < 5 * (558864007 / 47708416 * (0.21081:ℝ) + 1 - 2 / (9 * 5)) ^ 3 := hgap
    _ ≤ 5 * (558864007 / 47708416 * Real.sqrt (2 / (9 * 5)) + 1 - 2 / (9 * 5)) ^ 3 := by
        linarith [hcube5]

/-- The two C8 counterexample inputs: identical adjustments with
`alpha = exp(−72)` and `dof = 5` resp. `dof = 6`. -/
def adjC8a : Adjustment 1 1 Unit Unit :=
  { adj0 with
    dof := 5
    adjustmentoptions := { AdjustmentOptions.init with alpha := Real.exp (-72) } }

def adjC8b : Adjustment 1 1 Unit Unit := { adjC8a with dof := 6 }

/-- C8 counterexample: at the fixed significance level `alpha = exp(−72)`
(a legal value in `(0,1)`), the critical value computed by `lsq_statistics`
is NOT monotonically increasing in `dof` on `dof ≥ 5`: it strictly decreases
from `dof = 5` to `dof = 6`. -/
theorem chi2c_not_monotone_cex :
    ∃ ra rb : AdjustmentResults,
      lsq_statistics adjC8a = Except.ok ra ∧
      lsq_statistics adjC8b = Except.ok rb ∧
      rb.chi2c < ra.chi2c := by
  have hexp : Real.exp (-72) ≠ 0 := (Real.exp_pos _).ne'
  refine ⟨{ adjC8a.adjustmentresults with
              chi2 := adjC8a.VtPV 0 0, dof := some adjC8a.dof,
              chi2c := chi2cOf (adjC8a.dof : ℝ) adjC8a.adjustmentoptions.alpha },
          { adjC8b.adjustmentresults with
              chi2 := adjC8b.VtPV 0 0, dof := some adjC8b.dof,
              chi2c := chi2cOf (adjC8b.dof : ℝ) adjC8b.adjustmentoptions.alpha },
          ?_, ?_, ?_⟩
  · have h1 : ¬(adjC8a.adjustmentoptions.alpha = 0) := hexp
    have h2 : ¬(adjC8a.dof = 0) := by decide
    simp only [lsq_statistics]
    rw [if_neg h1, if_neg h2]
  · have h1 : ¬(adjC8b.adjustmentoptions.alpha = 0) := hexp
    have h2 : ¬(adjC8b.dof = 0) := by decide
    simp only [lsq_statistics]
    rw [if_neg h1, if_neg h2]
  · have h := chi2cOf_exp72_six_lt_five
    show chi2cOf (adjC8b.dof : ℝ) adjC8b.adjustmentoptions.alpha <
      chi2cOf (adjC8a.dof : ℝ) adjC8a.adjustmentoptions.alpha
    have hda : ((adjC8a.dof : ℤ) : ℝ) = 5 := by norm_num [adjC8a, adj0]
    have hdb : ((adjC8b.dof : ℤ) : ℝ) = 6 := by norm_num [adjC8b, adjC8a, adj0]
    have hala : adjC8a.adjustmentoptions.alpha = Real.exp (-72) := rfl
    have halb : adjC8b.adjustmentoptions.alpha = Real.exp (-72) := rfl
    rw [hda, hdb, hala, halb]
    exact h

end

end GSadjust
